import Mathlib

/-!
Shallow embedding of the caching / API-usage-governance layer of the
recipe application: the `CacheManager` (bounded TTL cache with LRU trim),
the `APIUsageManager` (day-scoped usage ledger), the local fallback
recipe matcher, and the `RecipeService` façade, together with theorems
checking the specified properties against these definitions.

Conventions of the embedding:
* JS `Date.now()` timestamps are `Nat` milliseconds, threaded explicitly.
* JS `Map` / plain objects are association lists in insertion order;
  `Map.set` / property assignment overwrite in place (keeping position)
  and append new keys at the end, exactly as in the JS runtime.
* `localStorage` for the ledger is an explicit `Option UsageData` value.
* Fractional arithmetic (`0.95 * 100`, `score += matchPercentage * 5`,
  `calls / dailyLimit * 100`) is modelled in `ℚ`.  The float products in
  the sources all round exactly in IEEE doubles: `100 * 0.3 = 30.0` (so
  `Math.floor(this.maxCacheSize * 0.3)` is embedded as `100 * 3 / 10`),
  `0.95 * 100 = 95.0` and `0.8 * 100 = 80.0`; and `calls / 150 * 100`
  for integer `calls` is always at distance at least `1/3` from those
  thresholds except when equal to them in `ℚ` as well, so every float
  comparison in the sources agrees with its `ℚ` counterpart here.
-/

namespace Flavory

/-! ### JavaScript string primitives used by the sources -/

/-- ASCII lower-casing of one character; the repository's catalog data and
queries are ASCII, where `String.prototype.toLowerCase` acts exactly like
this. -/
def asciiLower (c : Char) : Char :=
  if 'A' ≤ c ∧ c ≤ 'Z' then Char.ofNat (c.toNat + 32) else c

/-- Embeds `s.toLowerCase()` -/
def toLowerCase (s : String) : String :=
  String.mk (s.data.map asciiLower)

/-- Contiguous-substring test on character lists (`true` on an empty
needle, as in JS). -/
def listContains : List Char → List Char → Bool
  | [], needle => needle.isEmpty
  | c :: t, needle => needle.isPrefixOf (c :: t) || listContains t needle

/-- Embeds `s.includes(pattern)` -/
def includes (s pattern : String) : Bool :=
  listContains s.data pattern.data

/-- Embeds `s.replace(/\s+/g, '')` — drop every whitespace character. -/
def stripSpaces (s : String) : String :=
  String.mk (s.data.filter (fun c => !c.isWhitespace))

/-- Embeds `Math.round` on a nonnegative-or-negative rational: round half away
from zero towards `+∞`, which is JS semantics (`⌊q + 1/2⌋`). -/
def jsRound (q : ℚ) : Int :=
  ⌊q + 1 / 2⌋

/-- Round a rational to the nearest integer, ties to even (the IEEE-754
mantissa rounding step). -/
def nearestEvenInt (y : ℚ) : Int :=
  let f := ⌊y⌋
  let r := y - f
  if r < 1 / 2 then f
  else if 1 / 2 < r then f + 1
  else if f % 2 = 0 then f else f + 1

/-- Fuel-driven binary logarithm (structural recursion, so the kernel can
evaluate it on literals; `⌊log2 n⌋ + 1 ≤ n` for `n ≥ 1`, so `n` itself is
always enough fuel). -/
def log2Fuel : Nat → Nat → Nat
  | 0, _ => 0
  | fuel + 1, n => if 2 ≤ n then log2Fuel fuel (n / 2) + 1 else 0

/-- Integer part of the base-2 logarithm of a natural number (0 at 0). -/
def natLog2 (n : Nat) : Nat := log2Fuel n n

/-- Integer part of the base-2 logarithm of a positive rational: the
bit-length difference of numerator and denominator, corrected by direct
comparison (the true value always lies within one of the difference). -/
def ratLog2 (x : ℚ) : Int :=
  let k : Int := (natLog2 x.num.toNat : Int) - (natLog2 x.den : Int)
  if x < (2 : ℚ) ^ (k : Int) then k - 1
  else if x < (2 : ℚ) ^ (k + 1 : Int) then k
  else k + 1

/-- The exact rational value of the IEEE-754 binary64 double nearest to a
positive rational (round to nearest, ties to even), with subnormals below
`2^(-1022)`; overflow is not modelled (every value this file feeds in lies
in `[0, 100]`). -/
def roundDoubleAbs (x : ℚ) : ℚ :=
  let e := ratLog2 x
  let scale : Int := if e < -1022 then 1074 else 52 - e
  (nearestEvenInt (x * (2 : ℚ) ^ scale) : ℚ) / (2 : ℚ) ^ scale

/-- Rounding a rational to the nearest IEEE-754 binary64 value, as an
exact rational: what a JS arithmetic operation produces from the exact
result of its operands. -/
def roundDouble (x : ℚ) : ℚ :=
  if x = 0 then 0
  else if x < 0 then -(roundDoubleAbs (-x))
  else roundDoubleAbs x

/-! ### JS values and parameter objects

Request parameter objects hold strings, numbers and booleans; they are
modelled as association lists of `PValue` in property-insertion order. -/

inductive PValue where
  | s (v : String)
  | n (v : Int)
  | b (v : Bool)
deriving DecidableEq

abbrev Params := List (String × PValue)

/-- JS truthiness of a parameter value. -/
def pvTruthy : PValue → Bool
  | .s v => v ≠ ""
  | .n v => v ≠ 0
  | .b v => v

/-- Embeds `JSON.stringify` of one primitive value (string escaping is not
needed for the catalog's plain keys and values). -/
def pvToJson : PValue → String
  | .s v => "\"" ++ v ++ "\""
  | .n v => toString v
  | .b true => "true"
  | .b false => "false"

/-- Property lookup `obj[k]` (first — and in an object only — binding). -/
def getParam (ps : Params) (k : String) : Option PValue :=
  (ps.find? (fun p => p.1 == k)).map (·.2)

/-- Object spread `{ ...base, ...ext }`: keys of `base` in order, values
overridden by `ext` when present, then the keys of `ext` not already in
`base`, in order. -/
def objSpread (base ext : Params) : Params :=
  base.map (fun p =>
    match ext.find? (fun q => q.1 == p.1) with
    | some q => (p.1, q.2)
    | none => p)
  ++ ext.filter (fun q => !(base.any (fun p => p.1 == q.1)))

/-! ### CacheManager -/

structure CacheItem (α : Type) where
  data : α
  expiresAt : Nat
  lastAccessed : Nat
  createdAt : Nat
deriving DecidableEq

/-- Embeds `this.cache : Map` — association list in insertion order. -/
abbrev CacheMap (α : Type) := List (String × CacheItem α)

/-- Embeds `this.maxCacheSize = 100` -/
def maxCacheSize : Nat := 100

/-- Embeds `this.defaultTTL = 30 * 60 * 1000` -/
def defaultTTL : Nat := 30 * 60 * 1000

/-- Embeds `Map.prototype.set`: overwrite in place keeping the position if the
key exists, else append. -/
def mapSet (m : CacheMap α) (k : String) (v : CacheItem α) : CacheMap α :=
  if m.any (fun p => p.1 == k) then
    m.map (fun p => if p.1 == k then (k, v) else p)
  else
    m ++ [(k, v)]

/-- Embeds `Map.prototype.delete`. -/
def mapDelete (m : CacheMap α) (k : String) : CacheMap α :=
  m.filter (fun p => p.1 != k)

/-- Embeds `CacheManager.generateKey(endpoint, params)`: sort the keys, rebuild
the object in sorted order, serialize. -/
def sortParams (ps : Params) : Params :=
  List.insertionSort (fun a b => a.1 ≤ b.1) ps

def jsonStringify (ps : Params) : String :=
  "\x7b" ++ String.intercalate "," (ps.map (fun p => "\"" ++ p.1 ++ "\":" ++ pvToJson p.2)) ++ "\x7d"

def generateKey (endpoint : String) (params : Params) : String :=
  endpoint ++ ":" ++ jsonStringify (sortParams params)

/-- Embeds `CacheManager.get(key)`: miss on absent, delete-and-miss on expired
(`Date.now() > cached.expiresAt`), otherwise refresh `lastAccessed` and
return the data.  Returns the value together with the mutated store. -/
def cacheGet (now : Nat) (m : CacheMap α) (k : String) : Option α × CacheMap α :=
  match m.find? (fun p => p.1 == k) with
  | none => (none, m)
  | some p =>
    if p.2.expiresAt < now then
      (none, mapDelete m k)
    else
      (some p.2.data, mapSet m k { p.2 with lastAccessed := now })

/-- First pass of `CacheManager.cleanup()`: delete every entry with
`now > item.expiresAt`. -/
def removeExpired (now : Nat) (m : CacheMap α) : CacheMap α :=
  m.filter (fun p => !(p.2.expiresAt < now))

/-- Second pass of `CacheManager.cleanup()`: sort the entries by
`lastAccessed` ascending, take the first `Math.floor(maxCacheSize * 0.3)`
(= 30) of them, and delete those keys from the store. -/
def lruTrim (m : CacheMap α) : CacheMap α :=
  let sortedEntries := List.insertionSort (fun a b => a.2.lastAccessed ≤ b.2.lastAccessed) m
  let itemsToRemove := sortedEntries.take (maxCacheSize * 3 / 10)
  m.filter (fun p => !(itemsToRemove.any (fun q => q.1 == p.1)))

/-- Embeds `CacheManager.cleanup()`. -/
def cleanup (now : Nat) (m : CacheMap α) : CacheMap α :=
  let afterExpiry := removeExpired now m
  if maxCacheSize ≤ afterExpiry.length then lruTrim afterExpiry else afterExpiry

/-- Embeds `CacheManager.set(key, data, ttl)`. -/
def cacheSet (now : Nat) (m : CacheMap α) (k : String) (v : α) (ttl : Nat) : CacheMap α :=
  let m1 := if maxCacheSize ≤ m.length then cleanup now m else m
  mapSet m1 k ⟨v, now + ttl, now, now⟩

/-! ### APIUsageManager -/

structure UsageData where
  date : String
  calls : Nat
  endpoints : List (String × Nat)
  lastReset : Nat
  errors : Nat
  cached : Nat
deriving DecidableEq

/-- Embeds `this.dailyLimit = 150` -/
def dailyLimit : Nat := 150

/-- Embeds `this.warningThreshold = 0.8` -/
def warningThreshold : ℚ := 8 / 10

/-- Embeds `this.criticalThreshold = 0.95` -/
def criticalThreshold : ℚ := 95 / 100

/-- Embeds `APIUsageManager.createNewUsageData()`. -/
def createNewUsageData (today : String) (now : Nat) : UsageData :=
  ⟨today, 0, [], now, 0, 0⟩

/-- Embeds `APIUsageManager.getUsageData()`: absent storage or a stored record
whose `date` differs from today's date string yields a fresh zeroed
record; otherwise the stored record. -/
def getUsageData (stored : Option UsageData) (today : String) (now : Nat) : UsageData :=
  match stored with
  | none => createNewUsageData today now
  | some d => if d.date ≠ today then createNewUsageData today now else d

/-- Embeds `data.endpoints[endpoint] = (data.endpoints[endpoint] || 0) + 1`. -/
def bumpEndpoint (eps : List (String × Nat)) (e : String) : List (String × Nat) :=
  if eps.any (fun p => p.1 == e) then
    eps.map (fun p => if p.1 == e then (p.1, p.2 + 1) else p)
  else
    eps ++ [(e, 1)]

/-- Embeds `APIUsageManager.recordCall(endpoint, success)`; the returned record
is what `saveUsageData` persists. -/
def recordCall (stored : Option UsageData) (today : String) (now : Nat)
    (endpoint : String) (success : Bool) : UsageData :=
  let d := getUsageData stored today now
  if success then
    { d with calls := d.calls + 1, endpoints := bumpEndpoint d.endpoints endpoint }
  else
    { d with errors := d.errors + 1 }

/-- Embeds `APIUsageManager.recordCacheHit()`. -/
def recordCacheHit (stored : Option UsageData) (today : String) (now : Nat) : UsageData :=
  let d := getUsageData stored today now
  { d with cached := d.cached + 1 }

/-- Embeds `APIUsageManager.canMakeCall()`. -/
def canMakeCall (stored : Option UsageData) (today : String) (now : Nat) : Bool :=
  (getUsageData stored today now).calls < dailyLimit

/-- Embeds `APIUsageManager.getUsageStatus(usagePercent)`. -/
def getUsageStatus (usagePercent : ℚ) : String :=
  if usagePercent ≥ criticalThreshold * 100 then "critical"
  else if usagePercent ≥ warningThreshold * 100 then "warning"
  else "normal"

structure UsageStats where
  calls : Nat
  remaining : Nat
  limit : Nat
  usagePercent : ℚ
  date : String
  endpoints : List (String × Nat)
  errors : Nat
  cached : Nat
  status : String
  canMakeCall : Bool
deriving DecidableEq

/-- Embeds `APIUsageManager.getUsageStats()`; `remaining = Math.max(0, limit - calls)`
coincides with truncated `Nat` subtraction. -/
def getUsageStats (stored : Option UsageData) (today : String) (now : Nat) : UsageStats :=
  let data := getUsageData stored today now
  let usagePercent : ℚ := (data.calls : ℚ) / (dailyLimit : ℚ) * 100
  let remaining : Nat := dailyLimit - data.calls
  { calls := data.calls
    remaining := remaining
    limit := dailyLimit
    usagePercent := (jsRound (usagePercent * 100) : ℚ) / 100
    date := data.date
    endpoints := data.endpoints
    errors := data.errors
    cached := data.cached
    status := getUsageStatus usagePercent
    canMakeCall := decide (data.calls < dailyLimit) }

end Flavory

namespace Flavory

/-! ### The bundled local recipe catalog

`RecipeService.getLocalRecipes`'s `recipeDatabase`, embedded with the
fields the cache/usage/fallback layer reads (`id`, `title`, `summary`,
`readyInMinutes`, `servings`, `category`, `cuisine`, `vegetarian`);
the presentation-only payload fields (image URLs, health scores, prices)
are not read by any embedded operation and are omitted. -/

structure LocalRecipe where
  id : Nat
  title : String
  summary : String
  readyInMinutes : Nat
  servings : Nat
  category : String
  cuisine : String
  vegetarian : Bool
deriving DecidableEq

def recipeDatabase : List LocalRecipe := [
  ⟨1, "Paneer Butter Masala", "Rich and creamy tomato-based curry with soft paneer cubes, perfect with naan or rice.", 45, 4, "Main Course - Vegetarian", "Indian", true⟩,
  ⟨2, "Palak Paneer", "Creamy spinach curry with paneer cubes, packed with iron and flavor.", 40, 4, "Main Course - Vegetarian", "Indian", true⟩,
  ⟨3, "Dal Makhani", "Slow-cooked black lentils in rich, creamy tomato gravy - a North Indian classic.", 90, 6, "Main Course - Vegetarian", "Indian", true⟩,
  ⟨4, "Veg Biryani", "Aromatic basmati rice layered with spiced vegetables and herbs.", 60, 6, "Main Course - Vegetarian", "Indian", true⟩,
  ⟨5, "Chana Masala", "Spiced chickpea curry in tomato and onion gravy, a popular North Indian dish.", 35, 4, "Main Course - Vegetarian", "Indian", true⟩,
  ⟨6, "Rajma", "Kidney beans cooked in spiced tomato gravy, perfect with rice.", 60, 4, "Main Course - Vegetarian", "Indian", true⟩,
  ⟨7, "Baingan Bharta", "Smoky roasted eggplant cooked with onions, tomatoes, and spices.", 45, 4, "Main Course - Vegetarian", "Indian", true⟩,
  ⟨8, "Aloo Gobi", "Dry curry of potatoes and cauliflower with aromatic spices.", 30, 4, "Main Course - Vegetarian", "Indian", true⟩,
  ⟨9, "Kadai Paneer", "Paneer cooked with bell peppers and onions in spicy tomato gravy.", 40, 4, "Main Course - Vegetarian", "Indian", true⟩,
  ⟨10, "Malai Kofta", "Deep-fried cottage cheese and potato balls in rich creamy tomato gravy.", 50, 4, "Main Course - Vegetarian", "Indian", true⟩,
  ⟨61, "Classic Margherita Pizza", "Traditional Italian pizza with fresh mozzarella, tomatoes, and basil.", 25, 4, "Main Course", "Italian", true⟩,
  ⟨62, "Spaghetti Carbonara", "Creamy Italian pasta with eggs, cheese, and pancetta.", 20, 4, "Main Course", "Italian", false⟩,
  ⟨63, "Chicken Stir Fry", "Quick and healthy stir-fried chicken with mixed vegetables.", 15, 4, "Main Course", "Asian", false⟩,
  ⟨64, "Caesar Salad", "Fresh romaine lettuce with parmesan cheese and classic caesar dressing.", 10, 2, "Appetizer", "American", true⟩,
  ⟨65, "Chocolate Chip Cookies", "Classic homemade chocolate chip cookies, crispy outside and chewy inside.", 25, 24, "Dessert", "American", true⟩,
  ⟨11, "Chicken Biryani", "Fragrant basmati rice layered with marinated chicken and aromatic spices.", 75, 6, "Main Course - Non-Vegetarian", "Indian", false⟩,
  ⟨12, "Butter Chicken", "Tender chicken in rich, creamy tomato-based sauce with butter and cream.", 50, 4, "Main Course - Non-Vegetarian", "Indian", false⟩,
  ⟨13, "Chicken Tikka Masala", "Grilled chicken tikka in spiced curry sauce with onions and peppers.", 45, 4, "Main Course - Non-Vegetarian", "Indian", false⟩,
  ⟨14, "Rogan Josh", "Aromatic Kashmiri mutton curry with rich red gravy and traditional spices.", 90, 6, "Main Course - Non-Vegetarian", "Indian", false⟩,
  ⟨15, "Chicken Curry", "Traditional chicken curry with onions, tomatoes, and aromatic spices.", 40, 4, "Main Course - Non-Vegetarian", "Indian", false⟩,
  ⟨16, "Fish Curry", "Fresh fish cooked in coconut milk and spices, a coastal Indian delicacy.", 35, 4, "Main Course - Non-Vegetarian", "Indian", false⟩,
  ⟨17, "Mutton Biryani", "Royal mutton biryani with aromatic basmati rice and tender meat pieces.", 120, 8, "Main Course - Non-Vegetarian", "Indian", false⟩,
  ⟨18, "Chicken Korma", "Mild and creamy chicken curry with yogurt, nuts, and aromatic spices.", 55, 4, "Main Course - Non-Vegetarian", "Indian", false⟩,
  ⟨19, "Tandoori Chicken", "Marinated chicken roasted in tandoor oven with yogurt and spices.", 60, 4, "Main Course - Non-Vegetarian", "Indian", false⟩,
  ⟨20, "Keema Curry", "Spiced minced meat curry with peas and aromatic Indian spices.", 45, 4, "Main Course - Non-Vegetarian", "Indian", false⟩,
  ⟨21, "Pani Puri", "Crispy hollow puris filled with spicy, tangy water and chutneys.", 30, 4, "Street Food & Snacks", "Indian", true⟩,
  ⟨22, "Pav Bhaji", "Thick vegetable curry served with buttered bread rolls - Mumbai street food favorite.", 40, 4, "Street Food & Snacks", "Indian", true⟩,
  ⟨23, "Samosa", "Crispy triangular pastries stuffed with spiced potatoes and peas.", 45, 6, "Street Food & Snacks", "Indian", true⟩,
  ⟨24, "Dhokla", "Steamed savory cake made from fermented gram flour batter - Gujarati specialty.", 25, 4, "Street Food & Snacks", "Indian", true⟩,
  ⟨25, "Chaat", "Mixed street food snack with chutneys, yogurt, and crispy sev.", 20, 2, "Street Food & Snacks", "Indian", true⟩,
  ⟨26, "Vada Pav", "Deep-fried potato dumpling served in bread bun with chutneys - Mumbai's burger.", 30, 4, "Street Food & Snacks", "Indian", true⟩,
  ⟨27, "Bhel Puri", "Crunchy puffed rice mixed with vegetables, chutneys, and sev.", 15, 2, "Street Food & Snacks", "Indian", true⟩,
  ⟨28, "Dahi Puri", "Crispy puris topped with yogurt, chutneys, and spiced water.", 20, 4, "Street Food & Snacks", "Indian", true⟩,
  ⟨29, "Aloo Tikki", "Crispy potato patties served with chutneys and yogurt.", 25, 4, "Street Food & Snacks", "Indian", true⟩,
  ⟨30, "Kachori", "Deep-fried bread stuffed with spiced lentils or onions.", 35, 6, "Street Food & Snacks", "Indian", true⟩,
  ⟨31, "Garlic Naan", "Soft, pillowy bread topped with garlic and cilantro, baked in tandoor.", 30, 4, "Breads & Rice", "Indian", true⟩,
  ⟨32, "Aloo Paratha", "Stuffed flatbread with spiced potato filling, served with butter and yogurt.", 35, 4, "Breads & Rice", "Indian", true⟩,
  ⟨33, "Jeera Rice", "Fragrant basmati rice tempered with cumin seeds and ghee.", 20, 4, "Breads & Rice", "Indian", true⟩,
  ⟨34, "Butter Naan", "Classic tandoor bread brushed with butter, perfect with curries.", 25, 4, "Breads & Rice", "Indian", true⟩,
  ⟨35, "Roti", "Traditional whole wheat flatbread, a staple of Indian cuisine.", 20, 6, "Breads & Rice", "Indian", true⟩,
  ⟨36, "Pulao", "Aromatic rice dish cooked with whole spices and vegetables.", 30, 4, "Breads & Rice", "Indian", true⟩,
  ⟨37, "Lemon Rice", "Tangy South Indian rice dish with lemon juice and curry leaves.", 15, 4, "Breads & Rice", "Indian", true⟩,
  ⟨38, "Stuffed Kulcha", "Leavened bread stuffed with spiced onions or paneer.", 40, 4, "Breads & Rice", "Indian", true⟩,
  ⟨39, "Coconut Rice", "Fragrant rice cooked with coconut milk and South Indian spices.", 25, 4, "Breads & Rice", "Indian", true⟩,
  ⟨40, "Chapati", "Thin unleavened flatbread made from whole wheat flour.", 15, 6, "Breads & Rice", "Indian", true⟩,
  ⟨41, "Gulab Jamun", "Deep-fried milk dumplings soaked in rose-flavored sugar syrup.", 45, 8, "Desserts & Sweets", "Indian", true⟩,
  ⟨42, "Kheer", "Creamy rice pudding flavored with cardamom, nuts, and saffron.", 60, 6, "Desserts & Sweets", "Indian", true⟩,
  ⟨43, "Jalebi", "Spiral-shaped deep-fried sweet soaked in saffron sugar syrup.", 30, 6, "Desserts & Sweets", "Indian", true⟩,
  ⟨44, "Rasgulla", "Spongy cottage cheese balls cooked in light sugar syrup.", 40, 8, "Desserts & Sweets", "Indian", true⟩,
  ⟨45, "Kulfi", "Traditional Indian ice cream made with reduced milk and cardamom.", 240, 6, "Desserts & Sweets", "Indian", true⟩,
  ⟨46, "Laddu", "Sweet ball-shaped treats made from flour, ghee, and sugar.", 25, 10, "Desserts & Sweets", "Indian", true⟩,
  ⟨47, "Halwa", "Dense sweet made from semolina, ghee, sugar, and nuts.", 35, 6, "Desserts & Sweets", "Indian", true⟩,
  ⟨48, "Barfi", "Diamond-shaped milk fudge sweet flavored with cardamom and nuts.", 30, 12, "Desserts & Sweets", "Indian", true⟩,
  ⟨49, "Payasam", "South Indian sweet pudding made with vermicelli and milk.", 45, 6, "Desserts & Sweets", "Indian", true⟩,
  ⟨50, "Mysore Pak", "Traditional Karnataka sweet made from gram flour, ghee, and sugar.", 20, 8, "Desserts & Sweets", "Indian", true⟩]

/-- Embeds `RecipeService.getLocalRecipes(query, options)`: a falsy query (the
empty string here) and the special queries `random` / `similar` skip the
title/summary substring filter; `options.category` (when truthy and not
`all`) and `options.vegetarian` (when present) narrow the result. -/
def getLocalRecipes (query : String) (options : Params) : List LocalRecipe :=
  let filteredRecipes := recipeDatabase
  let filteredRecipes :=
    if query ≠ "" ∧ query ≠ "random" ∧ query ≠ "similar" then
      filteredRecipes.filter (fun recipe =>
        includes (toLowerCase recipe.title) (toLowerCase query) ||
        includes (toLowerCase recipe.summary) (toLowerCase query))
    else filteredRecipes
  let filteredRecipes :=
    match getParam options "category" with
    | some c =>
      if pvTruthy c && !(c == PValue.s "all") then
        filteredRecipes.filter (fun recipe => PValue.s recipe.category == c)
      else filteredRecipes
    | none => filteredRecipes
  let filteredRecipes :=
    match getParam options "vegetarian" with
    | some v => filteredRecipes.filter (fun recipe => PValue.b recipe.vegetarian == v)
    | none => filteredRecipes
  filteredRecipes

/-! ### Ingredient data and the advanced ingredient matcher -/

def paneerButterMasalaIngredients : List String :=
  ["paneer", "tomatoes", "onion", "heavy cream", "butter", "garam masala",
   "ginger-garlic paste"]

/-- Embeds `RecipeService.getRecipeIngredients`'s table; only the `name` field of
each ingredient object is read by the embedded operations, so ingredient
objects are embedded as their names. -/
def ingredientTable : List (Nat × List String) := [
  (1, paneerButterMasalaIngredients),
  (2, ["spinach", "paneer", "onion", "tomatoes", "ginger-garlic paste",
       "green chilies", "cumin seeds"]),
  (3, ["black lentils", "kidney beans", "tomatoes", "heavy cream", "butter",
       "garam masala"]),
  (11, ["basmati rice", "chicken", "yogurt", "onions", "saffron",
        "biryani masala", "mint leaves"]),
  (12, ["chicken", "tomatoes", "heavy cream", "butter", "yogurt",
        "garam masala"]),
  (21, ["puri shells", "tamarind", "mint leaves", "coriander leaves",
        "black salt", "potatoes"]),
  (31, ["all-purpose flour", "yogurt", "garlic", "butter", "baking powder",
        "cilantro"]),
  (41, ["milk powder", "plain flour", "sugar", "cardamom", "rose water",
        "ghee"])]

/-- Embeds `getRecipeIngredients(recipeId)`: table lookup with fallback to
recipe 1's list (`ingredients[recipeId] || ingredients[1]`). -/
def getRecipeIngredients (recipeId : Nat) : List String :=
  match ingredientTable.find? (fun p => p.1 == recipeId) with
  | some p => p.2
  | none => paneerButterMasalaIngredients

/-- Embeds `RecipeService.areIngredientsRelated`'s substitution groups. -/
def relatedGroups : List (List String) := [
  ["tomato", "tomatoes"],
  ["onion", "onions"],
  ["potato", "potatoes"],
  ["chicken", "poultry"],
  ["oil", "ghee", "butter"],
  ["yogurt", "curd", "dahi"],
  ["cilantro", "coriander", "dhania"],
  ["green chili", "green chilies", "chili"],
  ["garam masala", "spice", "spices"],
  ["rice", "basmati rice"],
  ["flour", "wheat flour", "maida"],
  ["paneer", "cottage cheese"],
  ["coconut", "coconut milk"],
  ["ginger garlic", "ginger", "garlic"]]

/-- Embeds `RecipeService.areIngredientsRelated(ingredient1, ingredient2)`. -/
def areIngredientsRelated (ingredient1 ingredient2 : String) : Bool :=
  let ing1 := toLowerCase ingredient1
  let ing2 := toLowerCase ingredient2
  includes ing1 ing2 || includes ing2 ing1 ||
    relatedGroups.any (fun group =>
      group.any (fun item => includes ing1 item) &&
      group.any (fun item => includes ing2 item))

/-- The `essentialIngredients` list of `findRecipesByIngredientsAdvanced`. -/
def essentialIngredients : List String :=
  ["salt", "oil", "water", "onion", "garlic", "ginger"]

/-- The `found` test of `findRecipesByIngredientsAdvanced`'s first loop:
the user ingredient occurs (normalized, as a substring either way round,
or via the substitution table) among the recipe's normalized ingredient
names. -/
def matchPred (ingredientNames : List String) (userIngredient : String) : Bool :=
  let normalizedUserIngredient := stripSpaces (toLowerCase userIngredient)
  ingredientNames.any (fun recipeIng =>
    includes recipeIng normalizedUserIngredient ||
    includes normalizedUserIngredient recipeIng ||
    areIngredientsRelated userIngredient recipeIng)

/-- First loop of `findRecipesByIngredientsAdvanced`
(`userIngredients.forEach`): accumulate `score += 2` and
`matchedIngredients.push(userIngredient)` for every user ingredient found
among the normalized recipe ingredient names. -/
def matchFold (ingredientNames userIngredients : List String) : ℚ × List String :=
  userIngredients.foldl (fun acc userIngredient =>
    if matchPred ingredientNames userIngredient then
      (acc.1 + 2, acc.2 ++ [userIngredient])
    else acc) (0, [])

/-- The `isEssential` test of the second loop. -/
def isEssentialName (ingredientName : String) : Bool :=
  essentialIngredients.any (fun essential => includes ingredientName essential)

/-- The `userHasIngredient` test of the second loop. -/
def userHas (userIngredients : List String) (ingredientName : String) : Bool :=
  userIngredients.any (fun userIng => areIngredientsRelated userIng ingredientName)

/-- Second loop of `findRecipesByIngredientsAdvanced`
(`recipeIngredients.forEach`): `score -= 1` and record the name for every
recipe ingredient that is neither essential nor related to some user
ingredient. -/
def missingFold (userIngredients recipeIngredients : List String) (init : ℚ) :
    ℚ × List String :=
  recipeIngredients.foldl (fun acc recipeIngName =>
    let ingredientName := toLowerCase recipeIngName
    if !(isEssentialName ingredientName) then
      if !(userHas userIngredients ingredientName) then
        (acc.1 - 1, acc.2 ++ [recipeIngName])
      else acc
    else acc) (init, [])

/-- A recipe ingredient that draws the −1 penalty: not essential and not
related to any user ingredient. -/
def penaltyPred (userIngredients : List String) (recipeIngName : String) : Bool :=
  !(isEssentialName (toLowerCase recipeIngName)) &&
    !(userHas userIngredients (toLowerCase recipeIngName))

structure ScoredRecipe where
  recipe : LocalRecipe
  matchScore : ℚ
  matchedIngredients : List String
  matchPercentage : Int
  missingIngredients : List String
  totalIngredients : Nat
deriving DecidableEq

/-- The body of `findRecipesByIngredientsAdvanced`'s `map` callback: score
one catalog recipe against the user's ingredients.  (With an empty user
list the JS `matchedIngredients.length / userIngredients.length` is `NaN`;
`ℚ` division by zero stands in for it, and every property proved below
assumes a non-empty user list.) -/
def scoreRecipeAdvanced (userIngredients : List String) (recipe : LocalRecipe) :
    ScoredRecipe :=
  let recipeIngredients := getRecipeIngredients recipe.id
  let ingredientNames := recipeIngredients.map (fun n => stripSpaces (toLowerCase n))
  let pass1 := matchFold ingredientNames userIngredients
  let pass2 := missingFold userIngredients recipeIngredients pass1.1
  let matchedIngredients := pass1.2
  let matchPercentage : ℚ :=
    (matchedIngredients.length : ℚ) / (userIngredients.length : ℚ)
  let score := pass2.1 + matchPercentage * 5 +
    (if recipeIngredients.length ≤ 8 then 2 else 0)
  -- JS holds the quotient as an IEEE double.  In the `score` term the
  -- double error (≲ 2^(-45)) is unobservable: distinct exact scores are
  -- separated by at least `1/userIngredients.length`, so no filter or
  -- sort comparison can flip; the exact value is used there.  In the
  -- reported `matchPercentage` the rounding IS observable, so the field
  -- models `Math.round` applied to the double evaluation
  -- `double(double(m/n) * 100)` explicitly.
  { recipe := recipe
    matchScore := max 0 score
    matchedIngredients := matchedIngredients
    matchPercentage := jsRound (roundDouble (roundDouble matchPercentage * 100))
    missingIngredients := pass2.2.take 5
    totalIngredients := recipeIngredients.length }

/-- Embeds `RecipeService.findRecipesByIngredientsAdvanced(userIngredients)`
(its `options` parameter is unused in the source): score every catalog
recipe, keep positive scores, sort descending by score. -/
def findRecipesByIngredientsAdvanced (userIngredients : List String) :
    List ScoredRecipe :=
  let scoredRecipes := recipeDatabase.map (scoreRecipeAdvanced userIngredients)
  List.insertionSort (fun a b => b.matchScore ≤ a.matchScore)
    (scoredRecipes.filter (fun r => decide (0 < r.matchScore)))

/-! ### The RecipeService façade

Network I/O is embedded by passing the outcome the HTTP client would
produce for the attempt (`NetOutcome`), and a `netCalls` counter records
whether the network was actually consulted.  The `localStorage`-backed
ledger and the module-level `searchCache` are carried in a `World`. -/

inductive NetOutcome (α : Type) where
  | success (results : α)
  | failure (status : Option Nat)
deriving DecidableEq

inductive JsError where
  | netError (status : Option Nat)
  | configError (msg : String)
deriving DecidableEq

inductive SearchRes (α : Type) where
  | api (results : α)
  | fallback (recipes : List LocalRecipe)
deriving DecidableEq

structure World (α : Type) where
  searchCache : CacheMap α
  usageStored : Option UsageData
  today : String
  now : Nat
  netCalls : Nat
deriving DecidableEq

/-- Embeds `CACHE_TTL.SEARCH_RESULTS = 15 * 60 * 1000`. -/
def SEARCH_RESULTS_TTL : Nat := 15 * 60 * 1000

/-- Embeds `RecipeService.searchRecipes(query, options)`. -/
def searchRecipes (w : World α) (configured : Bool) (net : NetOutcome α)
    (query : String) (options : Params) : Except JsError (SearchRes α) × World α :=
  let cacheKey := generateKey "complexSearch" (objSpread [("query", PValue.s query)] options)
  match cacheGet w.now w.searchCache cacheKey with
  | (some cached, cache1) =>
      (Except.ok (SearchRes.api cached),
       { w with searchCache := cache1,
                usageStored := some (recordCacheHit w.usageStored w.today w.now) })
  | (none, cache1) =>
      let w1 := { w with searchCache := cache1 }
      if !configured then
        (Except.ok (SearchRes.fallback (getLocalRecipes query options)), w1)
      else if !(canMakeCall w1.usageStored w1.today w1.now) then
        (Except.ok (SearchRes.fallback (getLocalRecipes query options)), w1)
      else
        let w2 := { w1 with netCalls := w1.netCalls + 1 }
        match net with
        | NetOutcome.success results =>
            let d3 := recordCall w2.usageStored w2.today w2.now "/complexSearch" true
            let w3 := { w2 with usageStored := some d3 }
            let c4 := cacheSet w3.now w3.searchCache cacheKey results SEARCH_RESULTS_TTL
            let w4 := { w3 with searchCache := c4 }
            (Except.ok (SearchRes.api results), w4)
        | NetOutcome.failure status =>
            let d3 := recordCall w2.usageStored w2.today w2.now "/complexSearch" false
            let w3 := { w2 with usageStored := some d3 }
            if status == some 402 || status == some 429 then
              (Except.ok (SearchRes.fallback (getLocalRecipes query options)), w3)
            else
              (Except.error (JsError.netError status), w3)

/-- Embeds `RecipeService.getRecipeDetails(recipeId)`: throws when unconfigured,
otherwise attempts the network and re-throws failures; it never touches
the ledger or the caches. -/
def getRecipeDetails (w : World α) (configured : Bool) (net : NetOutcome α)
    (recipeId : Nat) : Except JsError α × World α :=
  if !configured then
    (Except.error (JsError.configError
      "API key not configured. Please add your Spoonacular API key to use this feature."), w)
  else
    let w1 := { w with netCalls := w.netCalls + 1 }
    match net with
    | NetOutcome.success d => (Except.ok d, w1)
    | NetOutcome.failure status => (Except.error (JsError.netError status), w1)

/-- Embeds `RecipeService.getRandomRecipes(number)`: same control flow as
`getRecipeDetails` — no ledger or cache interaction. -/
def getRandomRecipes (w : World α) (configured : Bool) (net : NetOutcome α)
    (number : Nat) : Except JsError α × World α :=
  if !configured then
    (Except.error (JsError.configError
      "API key not configured. Please add your Spoonacular API key to use this feature."), w)
  else
    let w1 := { w with netCalls := w.netCalls + 1 }
    match net with
    | NetOutcome.success d => (Except.ok d, w1)
    | NetOutcome.failure status => (Except.error (JsError.netError status), w1)

/-- Embeds `RecipeService.findRecipesByIngredients(ingredients, options)` (the
network variant): same control flow as `getRecipeDetails` — no ledger or
cache interaction. -/
def findRecipesByIngredientsApi (w : World α) (configured : Bool)
    (net : NetOutcome α) (ingredients : List String) : Except JsError α × World α :=
  if !configured then
    (Except.error (JsError.configError
      "API key not configured. Please add your Spoonacular API key to use this feature."), w)
  else
    let w1 := { w with netCalls := w.netCalls + 1 }
    match net with
    | NetOutcome.success d => (Except.ok d, w1)
    | NetOutcome.failure status => (Except.error (JsError.netError status), w1)

end Flavory

namespace Flavory

/-! ## Theorems -/

/-! ### Cache key canonicalization (C7) -/

instance : IsTotal (String × PValue) (fun a b => a.1 ≤ b.1) :=
  ⟨fun a b => le_total a.1 b.1⟩

instance : IsTrans (String × PValue) (fun a b => a.1 ≤ b.1) :=
  ⟨fun _ _ _ h1 h2 => le_trans h1 h2⟩

instance : IsAntisymm (String × PValue) (fun a b => a.1 < b.1) :=
  ⟨fun _ _ h1 h2 => absurd (lt_trans h1 h2) (lt_irrefl _)⟩

theorem sorted_key_lt_of_nodup {l : Params}
    (hs : l.Sorted (fun a b => a.1 ≤ b.1)) (hn : (l.map Prod.fst).Nodup) :
    l.Sorted (fun a b => a.1 < b.1) := by
  have hnp : l.Pairwise (fun a b => a.1 ≠ b.1) := List.pairwise_map.mp hn
  exact (hs.and hnp).imp (fun h => lt_of_le_of_ne h.1 h.2)

theorem sortParams_eq_of_perm {ps1 ps2 : Params}
    (hperm : ps1.Perm ps2) (hnd : (ps1.map Prod.fst).Nodup) :
    sortParams ps1 = sortParams ps2 := by
  have hnd2 : (ps2.map Prod.fst).Nodup := ((hperm.map Prod.fst).nodup_iff).mp hnd
  have hp1 := List.perm_insertionSort (fun a b : String × PValue => a.1 ≤ b.1) ps1
  have hp2 := List.perm_insertionSort (fun a b : String × PValue => a.1 ≤ b.1) ps2
  have hs1 := List.sorted_insertionSort (fun a b : String × PValue => a.1 ≤ b.1) ps1
  have hs2 := List.sorted_insertionSort (fun a b : String × PValue => a.1 ≤ b.1) ps2
  have hnd1' : ((sortParams ps1).map Prod.fst).Nodup :=
    ((hp1.map Prod.fst).nodup_iff).mpr hnd
  have hnd2' : ((sortParams ps2).map Prod.fst).Nodup :=
    ((hp2.map Prod.fst).nodup_iff).mpr hnd2
  exact List.eq_of_perm_of_sorted (hp1.trans (hperm.trans hp2.symm))
    (sorted_key_lt_of_nodup hs1 hnd1') (sorted_key_lt_of_nodup hs2 hnd2')

/-- C7: for every operation name and every pair of parameter objects with
the same key–value bindings (in any insertion order, keys unrepeated as in
a JS object), `generateKey` produces the same key string. -/
theorem generateKey_canonical (endpoint : String) (ps1 ps2 : Params)
    (hperm : ps1.Perm ps2) (hnd : (ps1.map Prod.fst).Nodup) :
    generateKey endpoint ps1 = generateKey endpoint ps2 := by
  unfold generateKey
  rw [sortParams_eq_of_perm hperm hnd]

/-- Witness for C7 at the spec's example:
`key("search", {b:1, a:2}) = key("search", {a:2, b:1})`. -/
theorem generateKey_canonical_witness :
    ([("b", PValue.n 1), ("a", PValue.n 2)] : Params).Perm
      [("a", PValue.n 2), ("b", PValue.n 1)] ∧
    (([("b", PValue.n 1), ("a", PValue.n 2)] : Params).map Prod.fst).Nodup ∧
    generateKey "search" [("b", PValue.n 1), ("a", PValue.n 2)] =
      generateKey "search" [("a", PValue.n 2), ("b", PValue.n 1)] :=
  ⟨by decide, by decide,
   generateKey_canonical "search" _ _ (by decide) (by decide)⟩

end Flavory

namespace Flavory

/-! ### Quota gating and thresholds (C8) -/

theorem getUsageStatus_critical_iff (u : ℚ) :
    getUsageStatus u = "critical" ↔ criticalThreshold * 100 ≤ u := by
  unfold getUsageStatus
  split_ifs with h1 h2
  · simpa using h1
  · simp only [iff_false_intro (not_le.mpr (lt_of_not_ge h1))]
    simp
  · simp only [iff_false_intro (not_le.mpr (lt_of_not_ge h1))]
    simp

/-- C8: `canMakeCall()` is false exactly when the (rolled-over) ledger's
`calls ≥ dailyLimit = 150`, and `getUsageStats().status` is `"critical"`
exactly when `calls / dailyLimit ≥ 0.95` (the code compares
`usagePercent = calls / dailyLimit * 100` against
`criticalThreshold * 100`). -/
theorem quota_gating (stored : Option UsageData) (today : String) (now : Nat) :
    (canMakeCall stored today now = false ↔
      dailyLimit ≤ (getUsageData stored today now).calls) ∧
    ((getUsageStats stored today now).status = "critical" ↔
      (95 : ℚ) / 100 ≤ ((getUsageData stored today now).calls : ℚ) / (dailyLimit : ℚ)) := by
  constructor
  · unfold canMakeCall
    simp [not_lt]
  · have hstat : (getUsageStats stored today now).status =
        getUsageStatus (((getUsageData stored today now).calls : ℚ) / (dailyLimit : ℚ) * 100) := rfl
    rw [hstat, getUsageStatus_critical_iff]
    unfold criticalThreshold
    constructor
    · intro h
      nlinarith [h]
    · intro h
      nlinarith [h]

end Flavory

namespace Flavory

/-! ### Ledger day rollover (C9) -/

/-- C9: every read of the ledger goes through `getUsageData`, which
compares the stored `date` with today's date string and, on mismatch,
yields a zeroed ledger dated today before any other field is used; in
particular a ledger stored with yesterday's date and `calls = 150`, read
today, reports `calls = 0` and `canMakeCall() = true`. -/
theorem ledger_day_rollover (d : UsageData) (today : String) (now : Nat)
    (hdate : d.date ≠ today) :
    getUsageData (some d) today now = createNewUsageData today now ∧
    (getUsageData (some d) today now).calls = 0 ∧
    (getUsageData (some d) today now).date = today ∧
    canMakeCall (some d) today now = true := by
  have hdata : getUsageData (some d) today now = createNewUsageData today now := by
    unfold getUsageData
    simp [hdate]
  refine ⟨hdata, ?_, ?_, ?_⟩
  · rw [hdata]; rfl
  · rw [hdata]; rfl
  · unfold canMakeCall
    rw [hdata]
    simp [createNewUsageData, dailyLimit]

/-- Witness for C9: a ledger dated yesterday with `calls = 150`, read on a
different date string. -/
theorem ledger_day_rollover_witness :
    ("Fri Oct 10 2025" : String) ≠ "Sat Oct 11 2025" ∧
    getUsageData (some ⟨"Fri Oct 10 2025", 150, [], 0, 3, 7⟩) "Sat Oct 11 2025" 42 =
      createNewUsageData "Sat Oct 11 2025" 42 ∧
    (getUsageData (some ⟨"Fri Oct 10 2025", 150, [], 0, 3, 7⟩) "Sat Oct 11 2025" 42).calls = 0 ∧
    canMakeCall (some ⟨"Fri Oct 10 2025", 150, [], 0, 3, 7⟩) "Sat Oct 11 2025" 42 = true := by
  have h := ledger_day_rollover ⟨"Fri Oct 10 2025", 150, [], 0, 3, 7⟩
    "Sat Oct 11 2025" 42 (by decide)
  exact ⟨by decide, h.1, h.2.1, h.2.2.2⟩

end Flavory

namespace Flavory

/-! ### Cache capacity invariant (C5) -/

theorem length_mapSet (m : CacheMap α) (k : String) (v : CacheItem α) :
    (mapSet m k v).length ≤ m.length + 1 := by
  unfold mapSet
  split
  · simp
  · simp

theorem length_lruTrim (m : CacheMap α) (h : 30 ≤ m.length) :
    (lruTrim m).length + 30 ≤ m.length := by
  simp only [lruTrim]
  set sorted := List.insertionSort
    (fun a b : String × CacheItem α => a.2.lastAccessed ≤ b.2.lastAccessed) m with hsorted
  set K := sorted.take (maxCacheSize * 3 / 10) with hK
  set q : String × CacheItem α → Bool :=
    fun x => K.any (fun qq => qq.1 == x.1) with hq
  have hperm : sorted.Perm m := List.perm_insertionSort _ m
  have hKlen : K.length = 30 := by
    rw [hK, List.length_take, hperm.length_eq]
    simp only [maxCacheSize]
    omega
  have hKsub : K.Subperm m :=
    ((List.take_sublist _ _).subperm).trans hperm.subperm
  have hKq : ∀ x ∈ K, q x = true := by
    intro x hx
    exact List.any_eq_true.mpr ⟨x, hx, by simp⟩
  have hcount : 30 ≤ m.countP q := by
    have h1 : K.countP q = K.length := List.countP_eq_length.mpr hKq
    have h2 := List.Subperm.countP_le q hKsub
    omega
  have hsplit := List.length_eq_countP_add_countP (p := q) m
  have hcompl : m.countP (fun a => ¬ q a) = m.countP (fun x => !(q x)) := by
    congr 1
    funext a
    cases hqa : q a <;> simp [hqa]
  have hfil : (m.filter (fun x => !(q x))).length = m.countP (fun x => !(q x)) :=
    (List.countP_eq_length_filter _ _).symm
  have hgoal : (m.filter (fun x => !(q x))).length + 30 ≤ m.length := by
    omega
  exact hgoal

theorem length_cleanup (now : Nat) (m : CacheMap α) (h : m.length ≤ maxCacheSize) :
    (cleanup now m).length + 1 ≤ maxCacheSize := by
  simp only [cleanup]
  have hexp : (removeExpired now m).length ≤ m.length :=
    List.length_filter_le _ _
  split
  · rename_i hge
    have h30 : 30 ≤ (removeExpired now m).length := by
      unfold maxCacheSize at hge
      omega
    have := length_lruTrim (removeExpired now m) h30
    unfold maxCacheSize at hge h ⊢
    omega
  · rename_i hlt
    unfold maxCacheSize at hlt h ⊢
    omega

theorem length_cacheSet (now : Nat) (m : CacheMap α) (k : String) (v : α) (ttl : Nat)
    (h : m.length ≤ maxCacheSize) :
    (cacheSet now m k v ttl).length ≤ maxCacheSize := by
  simp only [cacheSet]
  split
  · rename_i hge
    have h1 := length_cleanup now m h
    have h2 := length_mapSet (cleanup now m) k
      (⟨v, now + ttl, now, now⟩ : CacheItem α)
    omega
  · rename_i hlt
    have h2 := length_mapSet m k (⟨v, now + ttl, now, now⟩ : CacheItem α)
    unfold maxCacheSize at hlt ⊢
    omega

/-- One `set(key, value, ttl)` call at time `now`. -/
structure SetOp (α : Type) where
  now : Nat
  key : String
  value : α
  ttl : Nat

/-- Run a sequence of `set` calls against a fresh cache instance. -/
def runSets (ops : List (SetOp α)) : CacheMap α :=
  ops.foldl (fun m op => cacheSet op.now m op.key op.value op.ttl) []

theorem foldl_cacheSet_le (ops : List (SetOp α)) (m : CacheMap α)
    (h : m.length ≤ maxCacheSize) :
    (ops.foldl (fun m op => cacheSet op.now m op.key op.value op.ttl) m).length
      ≤ maxCacheSize := by
  induction ops generalizing m with
  | nil => simpa using h
  | cons op ops ih =>
    exact ih _ (length_cacheSet op.now m op.key op.value op.ttl h)

/-- C5: for every sequence of `set(key, value, ttl)` calls against a fresh
cache instance (capacity `maxCacheSize = 100`), the number of stored
entries is at most 100 immediately after each `set` returns — i.e. after
every prefix of the sequence. -/
theorem cache_capacity_invariant (ops : List (SetOp α)) (k : Nat) :
    (runSets (ops.take k)).length ≤ maxCacheSize := by
  unfold runSets
  exact foldl_cacheSet_le (ops.take k) [] (by simp [maxCacheSize])

end Flavory

namespace Flavory

/-! ### LRU eviction policy (C6) -/

/-- Proof-side view of `cleanup`'s second pass: delete from `l` the keys of
the first `n` entries of `s` (the sorted copy). -/
def dropKeyed (l s : List (String × CacheItem α)) (n : Nat) : CacheMap α :=
  l.filter (fun x => !((s.take n).any (fun qq => qq.1 == x.1)))

theorem lruTrim_eq_dropKeyed (m : CacheMap α) :
    lruTrim m = dropKeyed m
      (List.insertionSort (fun a b => a.2.lastAccessed ≤ b.2.lastAccessed) m)
      (maxCacheSize * 3 / 10) := rfl

instance : IsTotal (String × CacheItem α)
    (fun a b => a.2.lastAccessed ≤ b.2.lastAccessed) :=
  ⟨fun a b => Nat.le_total a.2.lastAccessed b.2.lastAccessed⟩

instance : IsTrans (String × CacheItem α)
    (fun a b => a.2.lastAccessed ≤ b.2.lastAccessed) :=
  ⟨fun _ _ _ h1 h2 => Nat.le_trans h1 h2⟩

theorem dropKeyed_spec (l s : List (String × CacheItem α)) (n : Nat)
    (hperm : s.Perm l)
    (hsorted : s.Sorted (fun a b => a.2.lastAccessed ≤ b.2.lastAccessed))
    (hnd : (l.map Prod.fst).Nodup) (hn : n ≤ l.length) :
    (dropKeyed l s n).length + n = l.length ∧
    (∀ p ∈ l, p ∉ dropKeyed l s n → ∀ q ∈ dropKeyed l s n,
      p.2.lastAccessed ≤ q.2.lastAccessed) ∧
    (∀ e ∈ l, n ≤ l.countP (fun x => decide (x.2.lastAccessed < e.2.lastAccessed)) →
      e ∈ dropKeyed l s n) := by
  have hKs : List.Sublist (s.take n) s := List.take_sublist _ _
  have hDs : List.Sublist (s.drop n) s := List.drop_sublist _ _
  have hKlen : (s.take n).length = n := by
    rw [List.length_take, hperm.length_eq]
    omega
  have hkey : ∀ x ∈ l, ∀ kk ∈ s.take n, kk.1 = x.1 → kk = x := by
    intro x hx kk hkk hkx
    exact List.inj_on_of_nodup_map hnd (hperm.mem_iff.mp (hKs.subset hkk)) hx hkx
  have hmem : ∀ y, y ∈ dropKeyed l s n ↔ y ∈ l ∧ ∀ kk ∈ s.take n, ¬ kk.1 = y.1 := by
    intro y
    unfold dropKeyed
    rw [List.mem_filter]
    simp
  have hmem' : ∀ y ∈ l, (y ∈ dropKeyed l s n ↔ y ∉ s.take n) := by
    intro y hy
    rw [hmem y]
    constructor
    · rintro ⟨-, hno⟩ hyK
      exact hno y hyK rfl
    · intro hnK
      refine ⟨hy, fun kk hkk heq => ?_⟩
      exact hnK (hkey y hy kk hkk heq ▸ hkk)
  have hsplit : s.take n ++ s.drop n = s := List.take_append_drop n s
  have hsnd : s.Nodup :=
    List.Nodup.of_map Prod.fst (((hperm.map Prod.fst)).nodup_iff.mpr hnd)
  have hdisj : List.Disjoint (s.take n) (s.drop n) := by
    rw [← hsplit] at hsnd
    exact List.disjoint_of_nodup_append hsnd
  have hdropmem : ∀ y ∈ s.drop n, y ∈ dropKeyed l s n := by
    intro y hyD
    have hyl : y ∈ l := hperm.mem_iff.mp (hDs.subset hyD)
    rw [hmem' y hyl]
    intro hyK
    exact hdisj hyK hyD
  have hKnotmem : ∀ y ∈ s.take n, y ∉ dropKeyed l s n := by
    intro y hyK hyR
    have hyl : y ∈ l := hperm.mem_iff.mp (hKs.subset hyK)
    exact (hmem' y hyl).mp hyR hyK
  have hmemdrop : ∀ y ∈ dropKeyed l s n, y ∈ s.drop n := by
    intro y hyR
    have hyl : y ∈ l := ((hmem y).mp hyR).1
    have hys : y ∈ s := hperm.mem_iff.mpr hyl
    rcases List.mem_append.mp (hsplit ▸ hys) with hyK | hyD
    · exact absurd hyR (hKnotmem y hyK)
    · exact hyD
  refine ⟨?_, ?_, ?_⟩
  · -- exactly `n` entries are deleted
    have hc : (dropKeyed l s n).length =
        l.countP (fun x => !((s.take n).any (fun qq => qq.1 == x.1))) :=
      (List.countP_eq_length_filter _ _).symm
    have hcp : l.countP (fun x => !((s.take n).any (fun qq => qq.1 == x.1))) =
        s.countP (fun x => !((s.take n).any (fun qq => qq.1 == x.1))) :=
      (hperm.countP_eq _).symm
    have hsc : s.countP (fun x => !((s.take n).any (fun qq => qq.1 == x.1))) =
        (s.take n).countP (fun x => !((s.take n).any (fun qq => qq.1 == x.1))) +
        (s.drop n).countP (fun x => !((s.take n).any (fun qq => qq.1 == x.1))) := by
      rw [← List.countP_append, hsplit]
    have hzero : (s.take n).countP
        (fun x => !((s.take n).any (fun qq => qq.1 == x.1))) = 0 := by
      rw [List.countP_eq_zero]
      intro a ha
      simp only [Bool.not_eq_true', Bool.not_eq_false]
      exact List.any_eq_true.mpr ⟨a, ha, by simp⟩
    have hall : (s.drop n).countP
        (fun x => !((s.take n).any (fun qq => qq.1 == x.1))) = (s.drop n).length := by
      rw [List.countP_eq_length]
      intro a ha
      simp only [Bool.not_eq_true']
      rw [← Bool.not_eq_true, List.any_eq_true]
      rintro ⟨kk, hkk, hkeq⟩
      have hal : a ∈ l := hperm.mem_iff.mp (hDs.subset ha)
      have : kk = a := hkey a hal kk hkk (by simpa using hkeq)
      exact hdisj (this ▸ hkk) ha
    have hdl : (s.drop n).length = l.length - n := by
      rw [List.length_drop, hperm.length_eq]
    omega
  · -- LRU minimality of the evicted set
    intro p hp hpR q hq
    have hpK : p ∈ s.take n := by
      by_contra hnK
      exact hpR ((hmem' p hp).mpr hnK)
    exact hsorted.rel_of_mem_take_of_mem_drop hpK (hmemdrop q hq)
  · -- an entry strictly fresher than at least `n` others survives
    intro e he hcnt
    by_contra heR
    have heK : e ∈ s.take n := by
      by_contra hnK
      exact heR ((hmem' e he).mpr hnK)
    have hmin : ∀ q ∈ dropKeyed l s n, e.2.lastAccessed ≤ q.2.lastAccessed := by
      intro q hq
      exact hsorted.rel_of_mem_take_of_mem_drop heK (hmemdrop q hq)
    have hdropzero : (s.drop n).countP
        (fun x => decide (x.2.lastAccessed < e.2.lastAccessed)) = 0 := by
      rw [List.countP_eq_zero]
      intro a ha
      simp only [decide_eq_true_eq]
      exact not_lt.mpr (hmin a (hdropmem a ha))
    have htakele : (s.take n).countP
        (fun x => decide (x.2.lastAccessed < e.2.lastAccessed)) + 1 ≤ n := by
      have hsplitK := List.length_eq_countP_add_countP
        (p := fun x : String × CacheItem α =>
          decide (x.2.lastAccessed < e.2.lastAccessed)) (s.take n)
      have hpos : 0 < (s.take n).countP
          (fun x => ¬ decide (x.2.lastAccessed < e.2.lastAccessed)) := by
        rw [List.countP_pos_iff]
        exact ⟨e, heK, by simp⟩
      omega
    have hcnts : l.countP (fun x => decide (x.2.lastAccessed < e.2.lastAccessed)) =
        (s.take n).countP (fun x => decide (x.2.lastAccessed < e.2.lastAccessed)) +
        (s.drop n).countP (fun x => decide (x.2.lastAccessed < e.2.lastAccessed)) := by
      rw [← List.countP_append, hsplit, hperm.countP_eq]
    omega

end Flavory

namespace Flavory

/-- C6: when `set` finds the cache at capacity (100 entries, distinct keys
as a `Map` guarantees), `cleanup` (i) leaves no expired entry behind, and
(ii) if the store is still at capacity after the expiry pass, the LRU pass
deletes exactly `Math.floor(maxCacheSize * 0.3) = 30` entries — 30% of the
100 remaining — each with `lastAccessed` no greater than that of every
surviving entry; consequently an entry whose `lastAccessed` is strictly
greater than that of at least 30 other entries (e.g. one refreshed by a
recent `get`, which sets `lastAccessed := now`) survives in preference to
the staler entries. -/
theorem cleanup_lru_policy (now : Nat) (m : CacheMap α)
    (hnd : (m.map Prod.fst).Nodup) (hlen : m.length = maxCacheSize) :
    (∀ p ∈ cleanup now m, ¬ (p.2.expiresAt < now)) ∧
    (maxCacheSize ≤ (removeExpired now m).length →
      (cleanup now m).length + maxCacheSize * 3 / 10 = m.length ∧
      (∀ p ∈ m, p ∉ cleanup now m →
        ∀ q ∈ cleanup now m, p.2.lastAccessed ≤ q.2.lastAccessed) ∧
      (∀ e ∈ m, maxCacheSize * 3 / 10 ≤
          m.countP (fun x => decide (x.2.lastAccessed < e.2.lastAccessed)) →
        e ∈ cleanup now m)) := by
  constructor
  · intro p hp
    have hp' : p ∈ removeExpired now m := by
      simp only [cleanup] at hp
      split at hp
      · rw [lruTrim_eq_dropKeyed] at hp
        unfold dropKeyed at hp
        exact (List.mem_filter.mp hp).1
      · exact hp
    have := (List.mem_filter.mp hp').2
    simpa using this
  · intro hcap
    have hsub : List.Sublist (removeExpired now m) m := List.filter_sublist m
    have hexp_eq : removeExpired now m = m := by
      apply hsub.eq_of_length
      have h1 : (removeExpired now m).length ≤ m.length := hsub.length_le
      omega
    have hclean : cleanup now m = lruTrim m := by
      simp only [cleanup, hexp_eq, hlen, le_refl, if_true]
    have hspec := dropKeyed_spec m
      (List.insertionSort (fun a b => a.2.lastAccessed ≤ b.2.lastAccessed) m)
      (maxCacheSize * 3 / 10)
      (List.perm_insertionSort _ m)
      (List.sorted_insertionSort _ m)
      hnd (by rw [hlen]; norm_num [maxCacheSize])
    rw [hclean, lruTrim_eq_dropKeyed]
    exact hspec

/-- A concrete 100-entry cache at capacity: keys `"0" … "99"`, entry `i`
last accessed at time `i`, none expired at time 5. -/
def lruWitnessCache : CacheMap Nat :=
  (List.range 100).map (fun i => (toString i, ⟨i, 1000, i, 0⟩))

/-- Witness for C6 at `lruWitnessCache` and `now = 5`. -/
theorem cleanup_lru_policy_witness :
    ((lruWitnessCache.map Prod.fst).Nodup ∧
      lruWitnessCache.length = maxCacheSize) ∧
    ((∀ p ∈ cleanup 5 lruWitnessCache, ¬ (p.2.expiresAt < 5)) ∧
     (maxCacheSize ≤ (removeExpired 5 lruWitnessCache).length →
       (cleanup 5 lruWitnessCache).length + maxCacheSize * 3 / 10 =
         lruWitnessCache.length ∧
       (∀ p ∈ lruWitnessCache, p ∉ cleanup 5 lruWitnessCache →
         ∀ q ∈ cleanup 5 lruWitnessCache,
           p.2.lastAccessed ≤ q.2.lastAccessed) ∧
       (∀ e ∈ lruWitnessCache, maxCacheSize * 3 / 10 ≤
           lruWitnessCache.countP
             (fun x => decide (x.2.lastAccessed < e.2.lastAccessed)) →
         e ∈ cleanup 5 lruWitnessCache))) :=
  ⟨⟨by decide, by decide⟩,
   cleanup_lru_policy 5 lruWitnessCache (by decide) (by decide)⟩

end Flavory

namespace Flavory

/-! ### Fallback substitution (C3) and special queries (C10) -/

/-- Shared path lemma: on a cache miss, when the API is unconfigured or the
quota gate is closed, `searchRecipes` returns the local fallback and the
only state change is the one `get` already made to the cache (no ledger
mutation, no network call, no cache write). -/
theorem searchRecipes_fallback_path (w : World α) (configured : Bool)
    (net : NetOutcome α) (query : String) (options : Params)
    (hmiss : (cacheGet w.now w.searchCache
      (generateKey "complexSearch" (objSpread [("query", PValue.s query)] options))).1 = none)
    (hblock : configured = false ∨ canMakeCall w.usageStored w.today w.now = false) :
    searchRecipes w configured net query options =
      (Except.ok (SearchRes.fallback (getLocalRecipes query options)),
       { w with searchCache := (cacheGet w.now w.searchCache
          (generateKey "complexSearch" (objSpread [("query", PValue.s query)] options))).2 }) := by
  simp only [searchRecipes]
  rcases hget : cacheGet w.now w.searchCache
      (generateKey "complexSearch" (objSpread [("query", PValue.s query)] options))
    with ⟨v, cache1⟩
  rw [hget] at hmiss
  simp only at hmiss
  subst hmiss
  rcases hblock with hconf | hcan
  · subst hconf
    simp
  · cases configured
    · simp
    · simp [hcan]

/-- C3: if the cache misses on the canonical `chicken` key and the API is
not configured or `canMakeCall()` is false, `searchRecipes("chicken", {})`
returns a non-empty fallback result computed by `getLocalRecipes` from the
bundled dataset, makes no network call, keeps the ledger storage (hence
its `calls`) unchanged, and does not write the fallback result into the
search cache (the cache is exactly what `get` left behind). -/
theorem search_fallback_substitution (w : World α) (configured : Bool)
    (net : NetOutcome α)
    (hmiss : (cacheGet w.now w.searchCache
      (generateKey "complexSearch" (objSpread [("query", PValue.s "chicken")] []))).1 = none)
    (hblock : configured = false ∨ canMakeCall w.usageStored w.today w.now = false) :
    (searchRecipes w configured net "chicken" []).1 =
      Except.ok (SearchRes.fallback (getLocalRecipes "chicken" [])) ∧
    getLocalRecipes "chicken" [] ≠ [] ∧
    (searchRecipes w configured net "chicken" []).2.netCalls = w.netCalls ∧
    (searchRecipes w configured net "chicken" []).2.usageStored = w.usageStored ∧
    (searchRecipes w configured net "chicken" []).2.searchCache =
      (cacheGet w.now w.searchCache
        (generateKey "complexSearch" (objSpread [("query", PValue.s "chicken")] []))).2 := by
  have h := searchRecipes_fallback_path w configured net "chicken" [] hmiss hblock
  rw [h]
  refine ⟨rfl, ?_, rfl, rfl, rfl⟩
  decide

/-- Witness for C3: empty cache, empty ledger storage, unconfigured API. -/
theorem search_fallback_substitution_witness :
    ((cacheGet 0 ([] : CacheMap Nat)
      (generateKey "complexSearch" (objSpread [("query", PValue.s "chicken")] []))).1 = none) ∧
    ((searchRecipes (⟨[], none, "d", 0, 0⟩ : World Nat) false (NetOutcome.success 0)
        "chicken" []).1 =
      Except.ok (SearchRes.fallback (getLocalRecipes "chicken" [])) ∧
    getLocalRecipes "chicken" [] ≠ [] ∧
    (searchRecipes (⟨[], none, "d", 0, 0⟩ : World Nat) false (NetOutcome.success 0)
        "chicken" []).2.netCalls = 0 ∧
    (searchRecipes (⟨[], none, "d", 0, 0⟩ : World Nat) false (NetOutcome.success 0)
        "chicken" []).2.usageStored = none ∧
    (searchRecipes (⟨[], none, "d", 0, 0⟩ : World Nat) false (NetOutcome.success 0)
        "chicken" []).2.searchCache =
      (cacheGet 0 ([] : CacheMap Nat)
        (generateKey "complexSearch" (objSpread [("query", PValue.s "chicken")] []))).2) :=
  ⟨rfl, search_fallback_substitution (⟨[], none, "d", 0, 0⟩ : World Nat) false
    (NetOutcome.success 0) rfl (Or.inl rfl)⟩

end Flavory

namespace Flavory

/-- Spec-side reading for C10: the entire catalog narrowed only by the
`category` and `vegetarian` options, with no text filtering. -/
def categoryVegNarrow (options : Params) (l : List LocalRecipe) : List LocalRecipe :=
  let l1 :=
    match getParam options "category" with
    | some c =>
      if pvTruthy c && !(c == PValue.s "all") then
        l.filter (fun recipe => PValue.s recipe.category == c)
      else l
    | none => l
  match getParam options "vegetarian" with
  | some v => l1.filter (fun recipe => PValue.b recipe.vegetarian == v)
  | none => l1

/-- C10: the fallback search treats `"random"`, `"similar"` and the empty
query specially — no title/summary substring filter is applied, only the
category/vegetarian narrowing; hence with the quota exhausted (or the API
unconfigured) `searchRecipes("random", {})` returns every local recipe,
not just recipes whose text contains `"random"` (no catalog text matches
`"random"` at all). -/
theorem special_query_returns_whole_catalog (w : World α) (configured : Bool)
    (net : NetOutcome α) (query : String) (options : Params)
    (hq : query = "random" ∨ query = "similar" ∨ query = "")
    (hmiss : (cacheGet w.now w.searchCache
      (generateKey "complexSearch" (objSpread [("query", PValue.s query)] options))).1 = none)
    (hblock : configured = false ∨ canMakeCall w.usageStored w.today w.now = false) :
    getLocalRecipes query options = categoryVegNarrow options recipeDatabase ∧
    (searchRecipes w configured net query options).1 =
      Except.ok (SearchRes.fallback (getLocalRecipes query options)) ∧
    (searchRecipes w configured net query options).2.netCalls = w.netCalls ∧
    getLocalRecipes "random" [] = recipeDatabase ∧
    recipeDatabase.filter (fun r =>
      includes (toLowerCase r.title) (toLowerCase "random") ||
      includes (toLowerCase r.summary) (toLowerCase "random")) = [] := by
  have h := searchRecipes_fallback_path w configured net query options hmiss hblock
  refine ⟨?_, ?_, ?_, ?_, ?_⟩
  · rcases hq with hq | hq | hq <;> subst hq <;> rfl
  · rw [h]
  · rw [h]
  · rfl
  · decide

/-- Witness for C10: empty cache, configured API, ledger at the daily
limit (`calls = 150` today), query `"random"`, no options. -/
theorem special_query_returns_whole_catalog_witness :
    (("random" : String) = "random" ∨ ("random" : String) = "similar" ∨
      ("random" : String) = "") ∧
    ((cacheGet 7 ([] : CacheMap Nat)
      (generateKey "complexSearch" (objSpread [("query", PValue.s "random")] []))).1 = none) ∧
    (canMakeCall (some ⟨"d", 150, [], 0, 0, 0⟩) "d" 7 = false) ∧
    (getLocalRecipes "random" [] = categoryVegNarrow [] recipeDatabase ∧
     (searchRecipes (⟨[], some ⟨"d", 150, [], 0, 0, 0⟩, "d", 7, 0⟩ : World Nat) true
        (NetOutcome.success 0) "random" []).1 =
       Except.ok (SearchRes.fallback (getLocalRecipes "random" [])) ∧
     (searchRecipes (⟨[], some ⟨"d", 150, [], 0, 0, 0⟩, "d", 7, 0⟩ : World Nat) true
        (NetOutcome.success 0) "random" []).2.netCalls = 0 ∧
     getLocalRecipes "random" [] = recipeDatabase ∧
     recipeDatabase.filter (fun r =>
       includes (toLowerCase r.title) (toLowerCase "random") ||
       includes (toLowerCase r.summary) (toLowerCase "random")) = []) :=
  ⟨Or.inl rfl, rfl, by decide,
   special_query_returns_whole_catalog
     (⟨[], some ⟨"d", 150, [], 0, 0, 0⟩, "d", 7, 0⟩ : World Nat) true
     (NetOutcome.success 0) "random" [] (Or.inl rfl) rfl (Or.inr (by decide))⟩

end Flavory

namespace Flavory

/-! ### End-to-end search flow (C2) -/

theorem getUsageData_same_day (d : UsageData) (today : String) (now : Nat)
    (h : d.date = today) : getUsageData (some d) today now = d := by
  show (if d.date ≠ today then createNewUsageData today now else d) = d
  rw [if_neg]
  simp [h]

/-- C2: from a fresh ledger (empty storage, `calls = 0`), an empty search
cache and a configured credential, a `searchRecipes` call whose network
attempt succeeds returns the API results, leaves the ledger at `calls = 1`,
consults the network once, and stores the results in the search cache
under the canonical key; an immediately repeated identical call (whatever
the network would do) returns the cached value, makes no network call and
leaves `calls = 1`, `cachedHits = 1`. -/
theorem end_to_end_search_flow (results : α) (net2 : NetOutcome α)
    (query : String) (options : Params) (today : String) (now : Nat) :
    let w0 : World α := ⟨[], none, today, now, 0⟩
    let key := generateKey "complexSearch" (objSpread [("query", PValue.s query)] options)
    let r1 := searchRecipes w0 true (NetOutcome.success results) query options
    let r2 := searchRecipes r1.2 true net2 query options
    r1.1 = Except.ok (SearchRes.api results) ∧
    (getUsageData r1.2.usageStored today now).calls = 1 ∧
    r1.2.netCalls = 1 ∧
    (cacheGet now r1.2.searchCache key).1 = some results ∧
    r2.1 = Except.ok (SearchRes.api results) ∧
    (getUsageData r2.2.usageStored today now).calls = 1 ∧
    (getUsageData r2.2.usageStored today now).cached = 1 ∧
    r2.2.netCalls = r1.2.netCalls := by
  intro w0 key r1 r2
  have h1 : r1 = (Except.ok (SearchRes.api results),
      ⟨[(key, ⟨results, now + SEARCH_RESULTS_TTL, now, now⟩)],
       some ⟨today, 1, [("/complexSearch", 1)], now, 0, 0⟩, today, now, 1⟩) := rfl
  have hget2 : cacheGet now
      [(key, (⟨results, now + SEARCH_RESULTS_TTL, now, now⟩ : CacheItem α))] key =
      (some results, [(key, ⟨results, now + SEARCH_RESULTS_TTL, now, now⟩)]) := by
    unfold cacheGet
    simp only [List.find?_cons_of_pos, beq_self_eq_true]
    rw [if_neg (by simp [SEARCH_RESULTS_TTL])]
    simp [mapSet]
  have h2 : r2 = (Except.ok (SearchRes.api results),
      ⟨[(key, ⟨results, now + SEARCH_RESULTS_TTL, now, now⟩)],
       some ⟨today, 1, [("/complexSearch", 1)], now, 0, 1⟩, today, now, 1⟩) := by
    show searchRecipes r1.2 true net2 query options = _
    rw [h1]
    simp only [searchRecipes]
    rw [hget2]
    simp only [recordCacheHit, getUsageData_same_day ⟨today, 1, [("/complexSearch", 1)], now, 0, 0⟩ today now rfl]
  refine ⟨by rw [h1], ?_, by rw [h1], ?_, by rw [h2], ?_, ?_, by rw [h1, h2]⟩
  · rw [h1]
    simp only
    rw [getUsageData_same_day _ _ _ rfl]
  · rw [h1]
    simp only
    exact congrArg Prod.fst hget2
  · rw [h2]
    simp only
    rw [getUsageData_same_day _ _ _ rfl]
  · rw [h2]
    simp only
    rw [getUsageData_same_day _ _ _ rfl]

end Flavory

namespace Flavory

/-! ### Ledger updates across the façade (C1, corrected) -/

theorem find?_map_bump (eps : List (String × Nat)) (e : String) :
    (eps.map (fun p => if p.1 == e then (p.1, p.2 + 1) else p)).find?
        (fun p => p.1 == e) =
      (eps.find? (fun p => p.1 == e)).map (fun p => (p.1, p.2 + 1)) := by
  induction eps with
  | nil => rfl
  | cons p t ih =>
    rw [List.map_cons]
    cases hpe : (p.1 == e) with
    | false =>
      rw [if_neg (by simp [hpe])]
      rw [List.find?_cons_of_neg _ (by simp [hpe]),
        List.find?_cons_of_neg _ (by simp [hpe])]
      exact ih
    | true =>
      rw [if_pos (by simp [hpe])]
      rw [List.find?_cons_of_pos _ (by simp [hpe]),
        List.find?_cons_of_pos _ (by simp [hpe])]
      rfl

/-- The endpoint counter written by `recordCall(endpoint, true)` is the old
counter (or 0) plus one. -/
theorem bumpEndpoint_lookup (eps : List (String × Nat)) (e : String) :
    ((bumpEndpoint eps e).find? (fun p => p.1 == e)).map (·.2) =
      some (((eps.find? (fun p => p.1 == e)).map (·.2)).getD 0 + 1) := by
  unfold bumpEndpoint
  cases hany : eps.any (fun p => p.1 == e) with
  | false =>
    have hnone : eps.find? (fun p => p.1 == e) = none := by
      rw [List.find?_eq_none]
      intro x hx hxe
      have hx' : eps.any (fun p => p.1 == e) = true :=
        List.any_eq_true.mpr ⟨x, hx, hxe⟩
      rw [hany] at hx'
      exact Bool.false_ne_true hx'
    rw [if_neg (by simp), List.find?_append, hnone]
    simp
  | true =>
    rw [if_pos rfl, find?_map_bump]
    rcases hfind : eps.find? (fun p => p.1 == e) with - | p
    · simp only [List.any_eq_true] at hany
      obtain ⟨x, hx, hxe⟩ := hany
      rw [List.find?_eq_none] at hfind
      exact absurd hxe (hfind x hx)
    · rw [hfind]
      rfl

theorem searchRecipes_success_path (w : World α) (query : String)
    (options : Params) (results : α)
    (hmiss : (cacheGet w.now w.searchCache
      (generateKey "complexSearch" (objSpread [("query", PValue.s query)] options))).1 = none)
    (hcan : canMakeCall w.usageStored w.today w.now = true) :
    searchRecipes w true (NetOutcome.success results) query options =
      (Except.ok (SearchRes.api results),
       ⟨cacheSet w.now (cacheGet w.now w.searchCache
          (generateKey "complexSearch" (objSpread [("query", PValue.s query)] options))).2
          (generateKey "complexSearch" (objSpread [("query", PValue.s query)] options))
          results SEARCH_RESULTS_TTL,
        some (recordCall w.usageStored w.today w.now "/complexSearch" true),
        w.today, w.now, w.netCalls + 1⟩) := by
  simp only [searchRecipes]
  rcases hget : cacheGet w.now w.searchCache
      (generateKey "complexSearch" (objSpread [("query", PValue.s query)] options))
    with ⟨v, cache1⟩
  rw [hget] at hmiss
  simp only at hmiss
  subst hmiss
  simp [hcan]

theorem searchRecipes_failure_path (w : World α) (query : String)
    (options : Params) (status : Option Nat)
    (hmiss : (cacheGet w.now w.searchCache
      (generateKey "complexSearch" (objSpread [("query", PValue.s query)] options))).1 = none)
    (hcan : canMakeCall w.usageStored w.today w.now = true) :
    searchRecipes w true (NetOutcome.failure status) query options =
      ((if status = some 402 ∨ status = some 429 then
          Except.ok (SearchRes.fallback (getLocalRecipes query options))
        else Except.error (JsError.netError status)),
       ⟨(cacheGet w.now w.searchCache
          (generateKey "complexSearch" (objSpread [("query", PValue.s query)] options))).2,
        some (recordCall w.usageStored w.today w.now "/complexSearch" false),
        w.today, w.now, w.netCalls + 1⟩) := by
  simp only [searchRecipes]
  rcases hget : cacheGet w.now w.searchCache
      (generateKey "complexSearch" (objSpread [("query", PValue.s query)] options))
    with ⟨v, cache1⟩
  rw [hget] at hmiss
  simp only at hmiss
  subst hmiss
  simp only [Bool.not_true, Bool.false_eq_true, if_false, hcan]
  by_cases hst : status = some 402 ∨ status = some 429
  · rw [if_pos (by simpa using hst), if_pos hst]
  · rw [if_neg (by simpa using hst), if_neg hst]

end Flavory

namespace Flavory

/-- C1 (amended): only `searchRecipes` updates the usage ledger around its
network attempt — success increments `calls` and the `/complexSearch`
entry of the endpoint counts (leaving `errors` unchanged); failure
increments `errors` (leaving `calls` unchanged) and then re-raises the
error unless the status is 402/429, in which case local fallback results
are returned instead.  `getRecipeDetails`, `getRandomRecipes` and
`findRecipesByIngredients` never update the ledger, configured or not,
on success or on failure. -/
theorem facade_ledger_updates (w : World α) (net : NetOutcome α)
    (query : String) (options : Params) (results : α) (status : Option Nat)
    (recipeId number : Nat) (ingredients : List String)
    (hmiss : (cacheGet w.now w.searchCache
      (generateKey "complexSearch" (objSpread [("query", PValue.s query)] options))).1 = none)
    (hcan : canMakeCall w.usageStored w.today w.now = true) :
    (∃ L : UsageData,
      (searchRecipes w true (NetOutcome.success results) query options).2.usageStored
        = some L ∧
      L.calls = (getUsageData w.usageStored w.today w.now).calls + 1 ∧
      ((L.endpoints.find? (fun p => p.1 == "/complexSearch")).map (·.2)) =
        some ((((getUsageData w.usageStored w.today w.now).endpoints.find?
          (fun p => p.1 == "/complexSearch")).map (·.2)).getD 0 + 1) ∧
      L.errors = (getUsageData w.usageStored w.today w.now).errors) ∧
    (∃ L : UsageData,
      (searchRecipes w true (NetOutcome.failure status) query options).2.usageStored
        = some L ∧
      L.errors = (getUsageData w.usageStored w.today w.now).errors + 1 ∧
      L.calls = (getUsageData w.usageStored w.today w.now).calls ∧
      ((status = some 402 ∨ status = some 429) →
        (searchRecipes w true (NetOutcome.failure status) query options).1 =
          Except.ok (SearchRes.fallback (getLocalRecipes query options))) ∧
      (¬ (status = some 402 ∨ status = some 429) →
        (searchRecipes w true (NetOutcome.failure status) query options).1 =
          Except.error (JsError.netError status))) ∧
    ((getRecipeDetails w true net recipeId).2.usageStored = w.usageStored ∧
     (getRecipeDetails w false net recipeId).2.usageStored = w.usageStored ∧
     (getRandomRecipes w true net number).2.usageStored = w.usageStored ∧
     (getRandomRecipes w false net number).2.usageStored = w.usageStored ∧
     (findRecipesByIngredientsApi w true net ingredients).2.usageStored = w.usageStored ∧
     (findRecipesByIngredientsApi w false net ingredients).2.usageStored = w.usageStored) := by
  refine ⟨?_, ?_, ?_⟩
  · refine ⟨recordCall w.usageStored w.today w.now "/complexSearch" true, ?_, ?_, ?_, ?_⟩
    · rw [searchRecipes_success_path w query options results hmiss hcan]
    · rfl
    · exact bumpEndpoint_lookup _ _
    · rfl
  · refine ⟨recordCall w.usageStored w.today w.now "/complexSearch" false, ?_, rfl, rfl, ?_, ?_⟩
    · rw [searchRecipes_failure_path w query options status hmiss hcan]
    · intro hst
      rw [searchRecipes_failure_path w query options status hmiss hcan]
      simp only [if_pos hst]
    · intro hst
      rw [searchRecipes_failure_path w query options status hmiss hcan]
      simp only [if_neg hst]
  · refine ⟨?_, rfl, ?_, rfl, ?_, rfl⟩ <;> cases net <;> rfl

/-- Counterexample for C1 as stated: with a configured credential, a fresh
ledger and an empty cache, a failed `getRecipeDetails` network attempt
re-raises the error to the caller but records nothing in the ledger — the
error count stays 0 instead of being incremented. -/
theorem facade_ledger_counterexample :
    (getRecipeDetails (⟨[], none, "d", 0, 0⟩ : World Nat) true
      (NetOutcome.failure none) 5).1 = Except.error (JsError.netError none) ∧
    (getRecipeDetails (⟨[], none, "d", 0, 0⟩ : World Nat) true
      (NetOutcome.failure none) 5).2.usageStored = none ∧
    (getUsageData (getRecipeDetails (⟨[], none, "d", 0, 0⟩ : World Nat) true
      (NetOutcome.failure none) 5).2.usageStored "d" 0).errors = 0 ∧
    ¬ (getUsageData (getRecipeDetails (⟨[], none, "d", 0, 0⟩ : World Nat) true
      (NetOutcome.failure none) 5).2.usageStored "d" 0).errors =
        (getUsageData (none : Option UsageData) "d" 0).errors + 1 :=
  ⟨rfl, rfl, rfl, by decide⟩

/-- Witness for C1 (amended) at a concrete fresh world. -/
theorem facade_ledger_updates_witness :
    ((cacheGet 0 ([] : CacheMap Nat)
      (generateKey "complexSearch" (objSpread [("query", PValue.s "pasta")] []))).1
        = none) ∧
    (canMakeCall none "d" 0 = true) ∧
    ((∃ L : UsageData,
      (searchRecipes (⟨[], none, "d", 0, 0⟩ : World Nat) true (NetOutcome.success 7)
        "pasta" []).2.usageStored = some L ∧
      L.calls = (getUsageData none "d" 0).calls + 1 ∧
      ((L.endpoints.find? (fun p => p.1 == "/complexSearch")).map (·.2)) =
        some ((((getUsageData (none : Option UsageData) "d" 0).endpoints.find?
          (fun p => p.1 == "/complexSearch")).map (·.2)).getD 0 + 1) ∧
      L.errors = (getUsageData (none : Option UsageData) "d" 0).errors) ∧
    (∃ L : UsageData,
      (searchRecipes (⟨[], none, "d", 0, 0⟩ : World Nat) true
        (NetOutcome.failure (some 500)) "pasta" []).2.usageStored = some L ∧
      L.errors = (getUsageData (none : Option UsageData) "d" 0).errors + 1 ∧
      L.calls = (getUsageData (none : Option UsageData) "d" 0).calls ∧
      ((some 500 = some 402 ∨ some 500 = some 429) →
        (searchRecipes (⟨[], none, "d", 0, 0⟩ : World Nat) true
          (NetOutcome.failure (some 500)) "pasta" []).1 =
            Except.ok (SearchRes.fallback (getLocalRecipes "pasta" []))) ∧
      (¬ (some 500 = some 402 ∨ some 500 = some 429) →
        (searchRecipes (⟨[], none, "d", 0, 0⟩ : World Nat) true
          (NetOutcome.failure (some 500)) "pasta" []).1 =
            Except.error (JsError.netError (some 500)))) ∧
    ((getRecipeDetails (⟨[], none, "d", 0, 0⟩ : World Nat) true
        (NetOutcome.failure (some 500)) 3).2.usageStored = none ∧
     (getRecipeDetails (⟨[], none, "d", 0, 0⟩ : World Nat) false
        (NetOutcome.failure (some 500)) 3).2.usageStored = none ∧
     (getRandomRecipes (⟨[], none, "d", 0, 0⟩ : World Nat) true
        (NetOutcome.failure (some 500)) 2).2.usageStored = none ∧
     (getRandomRecipes (⟨[], none, "d", 0, 0⟩ : World Nat) false
        (NetOutcome.failure (some 500)) 2).2.usageStored = none ∧
     (findRecipesByIngredientsApi (⟨[], none, "d", 0, 0⟩ : World Nat) true
        (NetOutcome.failure (some 500)) ["tomato"]).2.usageStored = none ∧
     (findRecipesByIngredientsApi (⟨[], none, "d", 0, 0⟩ : World Nat) false
        (NetOutcome.failure (some 500)) ["tomato"]).2.usageStored = none)) :=
  ⟨rfl, rfl,
   facade_ledger_updates (⟨[], none, "d", 0, 0⟩ : World Nat)
     (NetOutcome.failure (some 500)) "pasta" [] 7 (some 500) 3 2 ["tomato"]
     rfl rfl⟩

end Flavory

namespace Flavory

/-! ### Ingredient scoring (C4) -/

theorem matchFold_spec (ingredientNames us : List String) (s : ℚ) (acc : List String) :
    us.foldl (fun acc userIngredient =>
      if matchPred ingredientNames userIngredient then
        (acc.1 + 2, acc.2 ++ [userIngredient])
      else acc) (s, acc) =
    (s + 2 * ((us.filter (matchPred ingredientNames)).length : ℚ),
     acc ++ us.filter (matchPred ingredientNames)) := by
  induction us generalizing s acc with
  | nil => simp
  | cons u us ih =>
    rw [List.foldl_cons, List.filter_cons]
    cases hpu : matchPred ingredientNames u with
    | false =>
      rw [if_neg (by simp [hpu]), if_neg (by simp [hpu])]
      exact ih s acc
    | true =>
      rw [if_pos (by simp [hpu]), if_pos (by simp [hpu])]
      rw [ih]
      simp only [Prod.mk.injEq]
      constructor
      · push_cast [List.length_cons]
        ring
      · simp

theorem missingFold_spec (us rs : List String) (s : ℚ) (acc : List String) :
    rs.foldl (fun acc recipeIngName =>
      let ingredientName := toLowerCase recipeIngName
      if !(isEssentialName ingredientName) then
        if !(userHas us ingredientName) then
          (acc.1 - 1, acc.2 ++ [recipeIngName])
        else acc
      else acc) (s, acc) =
    (s - ((rs.filter (penaltyPred us)).length : ℚ),
     acc ++ rs.filter (penaltyPred us)) := by
  induction rs generalizing s acc with
  | nil => simp
  | cons r rs ih =>
    rw [List.foldl_cons, List.filter_cons]
    simp only []
    cases h1 : isEssentialName (toLowerCase r) with
    | true =>
      rw [if_neg (by simp [h1]), if_neg (by simp [penaltyPred, h1])]
      exact ih s acc
    | false =>
      rw [if_pos (by simp [h1])]
      cases h2 : userHas us (toLowerCase r) with
      | true =>
        rw [if_neg (by simp [h2]), if_neg (by simp [penaltyPred, h1, h2])]
        exact ih s acc
      | false =>
        rw [if_pos (by simp [h2]), if_pos (by simp [penaltyPred, h1, h2])]
        rw [ih]
        simp only [Prod.mk.injEq]
        constructor
        · push_cast [List.length_cons]
          ring
        · simp

end Flavory

namespace Flavory

/-- The normalized ingredient names the first loop matches against. -/
def normalizedNames (lr : LocalRecipe) : List String :=
  (getRecipeIngredients lr.id).map (fun n => stripSpaces (toLowerCase n))

/-- Number of user ingredients that match (the claim's `matchedCount`). -/
def specMatchedCount (u : List String) (lr : LocalRecipe) : Nat :=
  (u.filter (matchPred (normalizedNames lr))).length

/-- Number of non-essential recipe ingredients matched by no user
ingredient (the claim's penalty count). -/
def specPenaltyCount (u : List String) (lr : LocalRecipe) : Nat :=
  ((getRecipeIngredients lr.id).filter (penaltyPred u)).length

/-- The claim's scoring formula:
`+2·matched − 1·penalties + 5·(matched/total) + 2·[≤ 8 ingredients]`. -/
def specScore (u : List String) (lr : LocalRecipe) : ℚ :=
  2 * (specMatchedCount u lr : ℚ) - (specPenaltyCount u lr : ℚ) +
    5 * ((specMatchedCount u lr : ℚ) / (u.length : ℚ)) +
    (if (getRecipeIngredients lr.id).length ≤ 8 then 2 else 0)

theorem scoreRecipeAdvanced_spec (u : List String) (lr : LocalRecipe) :
    scoreRecipeAdvanced u lr =
      ⟨lr, max 0 (specScore u lr),
       u.filter (matchPred (normalizedNames lr)),
       jsRound (roundDouble (roundDouble
         ((specMatchedCount u lr : ℚ) / (u.length : ℚ)) * 100)),
       ((getRecipeIngredients lr.id).filter (penaltyPred u)).take 5,
       (getRecipeIngredients lr.id).length⟩ := by
  simp only [scoreRecipeAdvanced, matchFold, missingFold]
  rw [matchFold_spec, missingFold_spec]
  simp only [List.nil_append]
  congr 1
  · unfold specScore specMatchedCount specPenaltyCount normalizedNames
    ring_nf

/-- Membership in the matcher's output: the positively-scored catalog
entries (the sort is a permutation). -/
theorem mem_findRecipesByIngredientsAdvanced (u : List String) (r : ScoredRecipe) :
    r ∈ findRecipesByIngredientsAdvanced u ↔
      (r ∈ recipeDatabase.map (scoreRecipeAdvanced u) ∧ 0 < r.matchScore) := by
  unfold findRecipesByIngredientsAdvanced
  rw [(List.perm_insertionSort _ _).mem_iff, List.mem_filter]
  simp

instance : IsTotal ScoredRecipe (fun a b => b.matchScore ≤ a.matchScore) :=
  ⟨fun a b => le_total b.matchScore a.matchScore⟩

instance : IsTrans ScoredRecipe (fun a b => b.matchScore ≤ a.matchScore) :=
  ⟨fun _ _ _ h1 h2 => le_trans h2 h1⟩

/-- C4 (amended): for every non-empty user ingredient list, every entry of
`findRecipesByIngredientsAdvanced` carries the claim's score
`2·matched − penalties + 5·(matched/total) + 2·[≤ 8 ingredients]`
(all positive — recipes scoring ≤ 0 are excluded, and every catalog
recipe scoring > 0 is included) and reports
`matchPercentage = Math.round` of the IEEE-double evaluation of
`matched/total × 100` (which differs from exact-rational rounding at
half-integer boundary inputs such as 23 of 40); the output is sorted by
score in descending order. -/
theorem ingredient_scoring (u : List String) (hu : u ≠ []) :
    (∀ r ∈ findRecipesByIngredientsAdvanced u,
      r.matchScore = specScore u r.recipe ∧ 0 < specScore u r.recipe ∧
      r.matchPercentage = jsRound (roundDouble (roundDouble
        ((specMatchedCount u r.recipe : ℚ) / (u.length : ℚ)) * 100))) ∧
    (findRecipesByIngredientsAdvanced u).Sorted
      (fun a b => b.matchScore ≤ a.matchScore) ∧
    (∀ lr ∈ recipeDatabase, specScore u lr ≤ 0 →
      scoreRecipeAdvanced u lr ∉ findRecipesByIngredientsAdvanced u) ∧
    (∀ lr ∈ recipeDatabase, 0 < specScore u lr →
      scoreRecipeAdvanced u lr ∈ findRecipesByIngredientsAdvanced u) := by
  have hmemiff := mem_findRecipesByIngredientsAdvanced u
  have hms : ∀ lr : LocalRecipe,
      (scoreRecipeAdvanced u lr).matchScore = max 0 (specScore u lr) := by
    intro lr
    rw [scoreRecipeAdvanced_spec]
  have hrec : ∀ lr : LocalRecipe, (scoreRecipeAdvanced u lr).recipe = lr := by
    intro lr
    rw [scoreRecipeAdvanced_spec]
  have hmp : ∀ lr : LocalRecipe, (scoreRecipeAdvanced u lr).matchPercentage =
      jsRound (roundDouble (roundDouble
        ((specMatchedCount u lr : ℚ) / (u.length : ℚ)) * 100)) := by
    intro lr
    rw [scoreRecipeAdvanced_spec]
  refine ⟨?_, ?_, ?_, ?_⟩
  · intro r hr
    obtain ⟨hmap, hpos⟩ := (hmemiff r).mp hr
    obtain ⟨lr, hlr, hlr_eq⟩ := List.mem_map.mp hmap
    subst hlr_eq
    rw [hms lr] at hpos
    have hspos : 0 < specScore u lr := by
      rcases le_or_lt (specScore u lr) 0 with hle | hltq
      · rw [max_eq_left hle] at hpos
        exact absurd hpos (lt_irrefl 0)
      · exact hltq
    refine ⟨?_, ?_, ?_⟩
    · rw [hms lr, hrec lr, max_eq_right hspos.le]
    · rw [hrec lr]
      exact hspos
    · rw [hmp lr, hrec lr]
  · exact List.sorted_insertionSort _ _
  · intro lr _ hle hmem
    have hpos := ((hmemiff _).mp hmem).2
    rw [hms lr, max_eq_left hle] at hpos
    exact absurd hpos (lt_irrefl 0)
  · intro lr hlr hpos
    refine (hmemiff _).mpr ⟨List.mem_map_of_mem _ hlr, ?_⟩
    rw [hms lr, max_eq_right hpos.le]
    exact hpos

/-- Witness for C4 at the concrete user list `["tomato", "onion"]`. -/
theorem ingredient_scoring_witness :
    (["tomato", "onion"] : List String) ≠ [] ∧
    ((∀ r ∈ findRecipesByIngredientsAdvanced ["tomato", "onion"],
      r.matchScore = specScore ["tomato", "onion"] r.recipe ∧
      0 < specScore ["tomato", "onion"] r.recipe ∧
      r.matchPercentage = jsRound (roundDouble (roundDouble
        ((specMatchedCount ["tomato", "onion"] r.recipe : ℚ) /
          ((["tomato", "onion"] : List String).length : ℚ)) * 100))) ∧
    (findRecipesByIngredientsAdvanced ["tomato", "onion"]).Sorted
      (fun a b => b.matchScore ≤ a.matchScore) ∧
    (∀ lr ∈ recipeDatabase, specScore ["tomato", "onion"] lr ≤ 0 →
      scoreRecipeAdvanced ["tomato", "onion"] lr ∉
        findRecipesByIngredientsAdvanced ["tomato", "onion"]) ∧
    (∀ lr ∈ recipeDatabase, 0 < specScore ["tomato", "onion"] lr →
      scoreRecipeAdvanced ["tomato", "onion"] lr ∈
        findRecipesByIngredientsAdvanced ["tomato", "onion"])) :=
  ⟨by decide, ingredient_scoring ["tomato", "onion"] (by decide)⟩

end Flavory

namespace Flavory

/-! ### The rounding divergence refuting C4 as stated -/

/-- A user list with 23 matching and 17 non-matching ingredients: 23 of 40
matched puts the exact percentage at the half-integer 57.5, where the
IEEE-double evaluation lands just below. -/
def roundingCxUser : List String :=
  List.replicate 23 "paneer" ++ List.replicate 17 "zzz"

/-- Catalog recipe 1 (its ingredient list contains `paneer`). -/
def paneerButterMasala : LocalRecipe :=
  ⟨1, "Paneer Butter Masala",
   "Rich and creamy tomato-based curry with soft paneer cubes, perfect with naan or rice.",
   45, 4, "Main Course - Vegetarian", "Indian", true⟩

theorem roundDouble_23_40 : roundDouble ((23 : ℚ)/40) =
    5179139571476070 / 9007199254740992 := by
  have hlog : ratLog2 ((23 : ℚ)/40) = -1 := by
    unfold ratLog2
    rw [show ((23 : ℚ)/40).num = 23 from by norm_num,
        show ((23 : ℚ)/40).den = 40 from by norm_num]
    rw [show ((23 : Int).toNat) = 23 from rfl]
    rw [show natLog2 23 = 4 from by decide, show natLog2 40 = 5 from by decide]
    norm_num
  have hne : nearestEvenInt ((25895697857380352 : ℚ)/5) = 5179139571476070 := by
    unfold nearestEvenInt
    norm_num
  unfold roundDouble roundDoubleAbs
  rw [if_neg (by norm_num), if_neg (by norm_num), hlog]
  norm_num
  rw [hne]
  norm_num

theorem roundDouble_575_times100 :
    roundDouble ((5179139571476070 : ℚ) / 9007199254740992 * 100) =
      8092405580431359 / 140737488355328 := by
  have hlog : ratLog2 ((5179139571476070 : ℚ) / 9007199254740992 * 100) = 5 := by
    unfold ratLog2
    rw [show ((5179139571476070 : ℚ) / 9007199254740992 * 100).num =
          64739244643450875 from by norm_num,
        show ((5179139571476070 : ℚ) / 9007199254740992 * 100).den =
          1125899906842624 from by norm_num]
    rw [show ((64739244643450875 : Int).toNat) = 64739244643450875 from rfl]
    rw [show natLog2 64739244643450875 = 55 from by decide,
        show natLog2 1125899906842624 = 50 from by decide]
    norm_num
  have hne : nearestEvenInt ((64739244643450875 : ℚ)/8) = 8092405580431359 := by
    unfold nearestEvenInt
    norm_num
  unfold roundDouble roundDoubleAbs
  rw [if_neg (by norm_num), if_neg (by norm_num), hlog]
  norm_num
  rw [hne]
  norm_num

/-- Counterexample for C4 as stated: with 23 of 40 user ingredients
matched, the program (faithfully embedded with IEEE-double rounding)
reports `matchPercentage = 57` for a recipe present in the output, while
the claim's exact-rational formula `round(matchedCount / total × 100)`
gives `round(57.5) = 58`. -/
theorem ingredient_rounding_counterexample :
    paneerButterMasala ∈ recipeDatabase ∧
    scoreRecipeAdvanced roundingCxUser paneerButterMasala ∈
      findRecipesByIngredientsAdvanced roundingCxUser ∧
    specMatchedCount roundingCxUser paneerButterMasala = 23 ∧
    roundingCxUser.length = 40 ∧
    (scoreRecipeAdvanced roundingCxUser paneerButterMasala).matchPercentage = 57 ∧
    jsRound ((specMatchedCount roundingCxUser paneerButterMasala : ℚ) /
      (roundingCxUser.length : ℚ) * 100) = 58 := by
  have hm : specMatchedCount roundingCxUser paneerButterMasala = 23 := by decide
  have hp : specPenaltyCount roundingCxUser paneerButterMasala = 4 := by decide
  have hlen : roundingCxUser.length = 40 := by decide
  have hingr : (getRecipeIngredients paneerButterMasala.id).length = 7 := by decide
  have hms : (scoreRecipeAdvanced roundingCxUser paneerButterMasala).matchScore =
      max 0 (specScore roundingCxUser paneerButterMasala) := by
    rw [scoreRecipeAdvanced_spec]
  have hmp : (scoreRecipeAdvanced roundingCxUser paneerButterMasala).matchPercentage =
      jsRound (roundDouble (roundDouble
        ((specMatchedCount roundingCxUser paneerButterMasala : ℚ) /
          (roundingCxUser.length : ℚ)) * 100)) := by
    rw [scoreRecipeAdvanced_spec]
  have hpos : (0 : ℚ) < specScore roundingCxUser paneerButterMasala := by
    unfold specScore
    rw [hm, hp, hingr, hlen]
    norm_num
  refine ⟨by decide, ?_, hm, hlen, ?_, ?_⟩
  · rw [mem_findRecipesByIngredientsAdvanced]
    refine ⟨List.mem_map_of_mem _ (by decide), ?_⟩
    rw [hms]
    rw [lt_max_iff]
    right
    exact hpos
  · rw [hmp, hm, hlen]
    push_cast
    rw [roundDouble_23_40, roundDouble_575_times100]
    unfold jsRound
    norm_num
  · rw [hm, hlen]
    push_cast
    unfold jsRound
    norm_num

end Flavory
